import Mathlib

/-!
Verification development for the BiancaTools MCP tool-dispatch server.

The definitions below are a shallow embedding of the TypeScript sources:
* `ErrorCode`, `MCPError`, `ToolResult`, `ContentBlock`, `ServerState`
  come from `src/types.ts`;
* `callToolHandler` embeds the `CallToolRequestSchema` request handler of
  `src/index.ts` (the dispatch operation), with JavaScript exceptions made
  explicit as the `Exn` sum type and the process-wide mutable `state`
  threaded explicitly;
* `registeredToolNames` lists the keys of the `toolHandlers` registry of
  `src/index.ts`;
* `handleScreenshot`-related definitions embed the path-extension logic of
  `src/index.ts`;
* `handleDeleteMemoriesAll` embeds the no-`memory_id` branch of
  `handleDeleteMemories` in `src/tools/mem0/index.ts`;
* the `withRetry`, `withTimeout` and `SimpleCache` definitions are modelled
  from the specification (the repository snapshot is missing `src/utils.ts`;
  only its unit tests and call sites are present), as indicated in their
  doc comments.

Asynchronous JavaScript functions are embedded as pure functions: an async
operation that may throw becomes a value in `Except`, and the cooperative
single-threaded scheduler is made explicit where a claim needs it.
-/

/-- Error codes, from the `ErrorCode` enum in `src/types.ts`. -/
inductive ErrorCode where
  | UNKNOWN
  | INVALID_PARAMS
  | NOT_FOUND
  | TIMEOUT
  | INTERNAL_ERROR
  | AUTHENTICATION_ERROR
  | METHOD_NOT_FOUND
  | BROWSER_NOT_INITIALIZED
  | PAGE_LOAD_FAILED
  | ELEMENT_NOT_FOUND
  | SCREENSHOT_FAILED
  | GITHUB_NOT_INITIALIZED
  | GITHUB_AUTH_FAILED
  | GITHUB_API_ERROR
  | INSUFFICIENT_PERMISSIONS
  | RATE_LIMIT_EXCEEDED
  deriving DecidableEq, Repr

/-- Structured error, from the `MCPError` class in `src/types.ts`:
code, message and an optional detail payload (the `details : any` field is
embedded as an optional string). -/
structure MCPError where
  code : ErrorCode
  message : String
  details : Option String
  deriving DecidableEq, Repr

/-- One entry of a response's `content` array, from `ContentBlock` in
`src/types.ts` (the `uri`/`mimeType` fields are never used by the code the
claims are about and are omitted). -/
structure ContentBlock where
  type : String
  text : Option String
  deriving DecidableEq, Repr

/-- Tagged success/failure response value, from the `ToolResult<T>`
discriminated union in `src/types.ts`. -/
inductive ToolResult (α : Type) where
  | success (data : α) (content : List ContentBlock)
  | failure (error : MCPError) (content : List ContentBlock)
  deriving DecidableEq, Repr

/-- Whether a `ToolResult` is Failure-tagged (`success: false`). -/
def ToolResult.isFailure {α : Type} : ToolResult α → Bool
  | .success _ _ => false
  | .failure _ _ => true

/-- The structured error of a Failure-tagged result, if any. -/
def ToolResult.errorOf {α : Type} : ToolResult α → Option MCPError
  | .success _ _ => none
  | .failure e _ => some e

/-- Modelled from the spec: `successResponse` lives in the missing
`src/utils.ts`. Per the spec (§4.1, §6) and the unit tests in
`src/__tests__/utils.test.ts`, it builds a Success-tagged result whose
content blocks carry the human-readable message (the JSON echo block the
tests also observe is irrelevant to every claim and elided). -/
def successResponse {α : Type} (data : α) (message : String) : ToolResult α :=
  ToolResult.success data [{ type := "text", text := some message }]

/-- Modelled from the spec: `errorResponse` lives in the missing
`src/utils.ts`. Per the spec (§4.1, §7) and the unit tests in
`src/__tests__/utils.test.ts`, it builds a Failure-tagged result carrying an
`MCPError` with the given code, message and optional details, and a content
block `"Error: <message>"`. -/
def errorResponse {α : Type} (code : ErrorCode) (message : String)
    (details : Option String) : ToolResult α :=
  ToolResult.failure { code := code, message := message, details := details }
    [{ type := "text", text := some ("Error: " ++ message) }]

/-- Process-wide server state, from `ServerState` in `src/types.ts`.
The browser, page and Octokit handles are opaque; they are embedded as
optional tokens. -/
structure ServerState where
  browser : Option Nat
  page : Option Nat
  octokit : Option Nat
  lastActivity : Nat
  requestCount : Nat
  deriving DecidableEq, Repr

/-- A JavaScript exception, as thrown by validation or a handler:
either a structured `MCPError`, a plain `Error` carrying a message, or a
thrown value that is not an `Error` at all. -/
inductive Exn where
  | mcp (e : MCPError)
  | err (message : String)
  | other
  deriving DecidableEq, Repr

/-- A raw or validated argument bag (an untyped key-value mapping). -/
def RawArgs : Type := List (String × String)

/-- A tool handler as seen by the dispatcher of `src/index.ts`: it reads and
may replace the process-wide state, and either returns a `ToolResult` or
throws. State writes made before a throw persist, so the handler returns the
final state in both outcomes. -/
def Handler (α : Type) : Type :=
  ServerState → RawArgs → Except Exn (ToolResult α) × ServerState

/-- The `catch (error)` block of the `CallToolRequestSchema` handler in
`src/index.ts` (lines 1083-1090): an `MCPError` is surfaced with its own
code, message and details; any other `Error` is wrapped with code `UNKNOWN`
and its message; a non-`Error` throw is wrapped with code `UNKNOWN` and the
message `"Unknown error occurred"`. -/
def catchToolError {α : Type} (e : Exn) : ToolResult α :=
  match e with
  | .mcp err => errorResponse err.code err.message err.details
  | .err message => errorResponse ErrorCode.UNKNOWN message none
  | .other => errorResponse ErrorCode.UNKNOWN "Unknown error occurred" none

/-- The `CallToolRequestSchema` request handler of `src/index.ts`
(lines 1054-1091), i.e. the dispatch operation. `handlers` embeds the
`toolHandlers` record, `validateToolInput` the validator imported from
`src/schemas.ts`. `now` is the current clock value (`Date.now()`), available
to the handler body but never consulted by it — the source dispatch code
reads no clock. The source mutates the module-level `state`; here the state
is threaded explicitly. The source's final `if (!result.content)` fix-up is
the identity in this embedding because `ToolResult` always carries a
`content` list. -/
def callToolHandler {α : Type} (handlers : String → Option (Handler α))
    (validateToolInput : String → RawArgs → Except Exn RawArgs)
    (now : Nat) (st : ServerState) (name : String) (args : Option RawArgs) :
    ToolResult α × ServerState :=
  let _ := now
  let st := { st with requestCount := st.requestCount + 1 }
  match args with
  | none => (errorResponse ErrorCode.INVALID_PARAMS "No arguments provided" none, st)
  | some args =>
    match handlers name with
    | none =>
      (errorResponse ErrorCode.NOT_FOUND ("Tool " ++ name ++ " not found") none, st)
    | some handler =>
      match validateToolInput name args with
      | Except.error e => (catchToolError e, st)
      | Except.ok validatedArgs =>
        match handler st validatedArgs with
        | (Except.ok result, st₂) => (result, st₂)
        | (Except.error e, st₂) => (catchToolError e, st₂)

/-- The keys of the `toolHandlers` registry in `src/index.ts`
(lines 647-667). -/
def registeredToolNames : List String :=
  ["puppeteer_navigate", "puppeteer_screenshot", "puppeteer_click",
   "puppeteer_type", "puppeteer_get_content",
   "github_create_issue", "github_list_issues", "github_create_pr",
   "github_create_repo", "github_push_files", "github_commit",
   "git_status", "git_commit", "git_push", "git_pull",
   "mem0_add_memory", "mem0_search_memory", "mem0_list_memories",
   "mem0_delete_memories"]

/-- Options of the retry wrapper (`{retries, delay}` at the call sites in
`src/index.ts`, e.g. `handleCreateIssue`). -/
structure RetryOptions where
  retries : Nat
  delay : Nat
  deriving DecidableEq, Repr

/-- Whether an `Except` value is an error. -/
def isErr {ε α : Type} : Except ε α → Bool
  | .error _ => true
  | .ok _ => false

/-- Modelled from the spec: `withRetry` lives in the missing `src/utils.ts`.
Per §4.2 of the spec (corroborated by the unit tests in
`src/__tests__/utils.test.ts`): invoke the operation; on failure sleep the
fixed delay and retry, with `retries` additional attempts after the first;
return the first successful result, or the error of the last attempt.
The asynchronous operation is embedded as a function from the attempt index
to that attempt's outcome; `i` is the index of the current attempt and `r`
the remaining retry budget. The returned `Nat` counts the invocations
performed (the inter-attempt delay does not affect any claim and is not
modelled). -/
def withRetryRun {ε α : Type} (operation : Nat → Except ε α) :
    Nat → Nat → Except ε α × Nat
  | 0, i => (operation i, 1)
  | r + 1, i =>
    match operation i with
    | .ok a => (.ok a, 1)
    | .error _ =>
      let rest := withRetryRun operation r (i + 1)
      (rest.1, rest.2 + 1)

/-- Modelled from the spec: entry point of the retry wrapper, starting at
attempt index 0 with the full retry budget. -/
def withRetry {ε α : Type} (operation : Nat → Except ε α)
    (options : RetryOptions) : Except ε α × Nat :=
  withRetryRun operation options.retries 0

/-- A cache entry, from `CacheEntry<V>` in the spec's data model (§3):
value plus insertion timestamp. -/
structure CacheEntry (V : Type) where
  value : V
  timestamp : Nat
  deriving DecidableEq, Repr

/-- Modelled from the spec: the `SimpleCache` class lives in the missing
`src/utils.ts`. Per §4.4 of the spec it memoizes keyed computations for a
configurable TTL, with lazy expiry on read and no other eviction. -/
structure SimpleCache (V : Type) where
  ttl : Nat
  store : List (String × CacheEntry V)
  deriving DecidableEq, Repr

/-- Staleness invariant from the spec (§3, §4.4): an entry is stale once
`now - insertionTimestamp >= ttl`. -/
def isStale (ttl now timestamp : Nat) : Bool :=
  ttl ≤ now - timestamp

/-- Modelled from the spec: `SimpleCache.getOrCompute`. For the key, a
non-stale entry is returned without invoking the compute function; otherwise
the compute function's result is stored under the key with the current
timestamp and returned. The asynchronous compute function is embedded as its
resulting value, and the returned `Bool` records whether it was invoked. -/
def SimpleCache.getOrCompute {V : Type} (c : SimpleCache V) (now : Nat)
    (key : String) (computeFn : V) : V × SimpleCache V × Bool :=
  match c.store.find? (fun p => p.1 == key) with
  | some entry =>
    if isStale c.ttl now entry.2.timestamp then
      (computeFn,
       { c with store := (key, ⟨computeFn, now⟩) ::
           c.store.filter (fun p => p.1 != key) }, true)
    else
      (entry.2.value, c, false)
  | none =>
    (computeFn,
     { c with store := (key, ⟨computeFn, now⟩) ::
         c.store.filter (fun p => p.1 != key) }, true)

/-- Outcome of one caller entering `getOrCompute` under the coalescing
regime of spec §4.4: the caller either hits a fresh entry, subscribes to an
in-flight computation for the key, or starts the computation itself. -/
inductive EnterOutcome (V : Type) where
  | hit (v : V)
  | subscribed
  | startedCompute
  deriving DecidableEq, Repr

/-- Modelled from the spec: state of the TTL cache extended with the
in-flight coalescing map required by §4.4 ("the cache must coalesce
concurrent misses into one in-flight computation per key"). `pending` maps a
key to the ids of the callers awaiting its single in-flight computation. -/
structure CoalescingCache (V : Type) where
  ttl : Nat
  store : List (String × CacheEntry V)
  pending : List (String × List Nat)
  deriving DecidableEq, Repr

/-- Modelled from the spec: the miss path of one coalescing `getOrCompute`
call — join the in-flight computation for the key if there is one, else
register the key as in-flight and start the one computation. -/
def CoalescingCache.enterMiss {V : Type} (c : CoalescingCache V)
    (key : String) (caller : Nat) : CoalescingCache V × EnterOutcome V :=
  match c.pending.find? (fun p => p.1 == key) with
  | some _ =>
    ({ c with pending := (c.pending.map (fun p => if p.1 == key then (p.1, p.2 ++ [caller]) else p)) },
     .subscribed)
  | none =>
    ({ c with pending := (key, [caller]) :: c.pending }, .startedCompute)

/-- Modelled from the spec: the synchronous prefix of one `getOrCompute`
call under the single-threaded cooperative scheduler (spec §5) — everything
the caller does before its first suspension point, executed atomically.
A fresh entry is a hit; otherwise the miss path runs. -/
def CoalescingCache.enter {V : Type} (c : CoalescingCache V) (now : Nat)
    (key : String) (caller : Nat) : CoalescingCache V × EnterOutcome V :=
  match c.store.find? (fun p => p.1 == key) with
  | some entry =>
    if isStale c.ttl now entry.2.timestamp then
      c.enterMiss key caller
    else
      (c, .hit entry.2.value)
  | none => c.enterMiss key caller

/-- Modelled from the spec: completion of the single in-flight computation
for a key — the value is stored with the completion timestamp, the pending
record is removed, and every caller registered for the key (the initiator
and all subscribers) receives the computed value. Returns the new state and
the list of (caller, value) deliveries. -/
def CoalescingCache.complete {V : Type} (c : CoalescingCache V) (now : Nat)
    (key : String) (v : V) : CoalescingCache V × List (Nat × V) :=
  let waiters := (c.pending.find? (fun p => p.1 == key)).elim [] (·.2)
  ({ c with
      store := (key, ⟨v, now⟩) :: c.store.filter (fun p => p.1 != key),
      pending := c.pending.filter (fun p => p.1 != key) },
   waiters.map (fun caller => (caller, v)))

/-- Runs the atomic enter steps of a list of callers, in order, collecting
each caller's outcome. -/
def CoalescingCache.runEnters {V : Type} (c : CoalescingCache V) (now : Nat)
    (key : String) : List Nat → CoalescingCache V × List (Nat × EnterOutcome V)
  | [] => (c, [])
  | caller :: rest =>
    let (c', outcome) := c.enter now key caller
    let (c'', outcomes) := c'.runEnters now key rest
    (c'', (caller, outcome) :: outcomes)

/-- Modelled from the spec: `withTimeout` lives in the missing
`src/utils.ts`. Per §4.3 of the spec it races the operation against a timer.
The asynchronous operation is embedded as the time at which it settles
together with its outcome. -/
structure TimedOperation (α : Type) where
  settlesAt : Nat
  outcome : Except MCPError α

/-- Modelled from the spec: the default message of a timeout failure
(the spec only requires "a default"; the concrete wording is unobservable to
every claim). -/
def defaultTimeoutMessage (timeoutMs : Nat) : String :=
  "Operation timed out after " ++ toString timeoutMs ++ "ms"

/-- Modelled from the spec: `withTimeout(operation, timeoutMs, message?)`
races the operation against a timer of `timeoutMs`. If the timer elapses
strictly before the operation settles, the call fails with a Timeout-kind
structured error carrying the given message or the default; otherwise the
operation's own result or error is propagated unchanged (and the timer is
cleared — unobservable here). -/
def withTimeout {α : Type} (operation : TimedOperation α) (timeoutMs : Nat)
    (message : Option String) : Except MCPError α :=
  if timeoutMs < operation.settlesAt then
    .error { code := ErrorCode.TIMEOUT,
             message := message.getD (defaultTimeoutMessage timeoutMs),
             details := none }
  else
    operation.outcome

/-- Parameters of the screenshot tool, from `ScreenshotParams` in
`src/types.ts`. -/
structure ScreenshotParams where
  path : String
  fullPage : Bool
  deriving DecidableEq, Repr

/-- Data payload of a successful screenshot response
(`successResponse({ path }, ...)` in `src/index.ts`). -/
structure ScreenshotData where
  path : String
  deriving DecidableEq, Repr

/-- The recognized image extensions of the regular expression
`/\.(png|jpg|jpeg|webp)$/i` in `handleScreenshot` (`src/index.ts`
line 217). -/
def imageExtensions : List String := ["png", "jpg", "jpeg", "webp"]

/-- Whether `path.match(/\.(png|jpg|jpeg|webp)$/i)` succeeds: the path ends,
case-insensitively (characters mapped to lower case), in a dot followed by
one of the recognized image extensions. The check runs on the character list
of the string. -/
def matchesImageExtension (path : String) : Bool :=
  imageExtensions.any (fun ext =>
    ("." ++ ext).data.isSuffixOf (path.data.map Char.toLower))

/-- The `handleScreenshot` handler of `src/index.ts` (lines 212-227), after
the browser has been acquired: the path is given a `.png` extension when it
does not already end in a recognized image extension, the screenshot is
saved to the adjusted path (returned as the first component, standing for
the `page.screenshot({ path })` call), and the success response reports the
adjusted path in its data and message. -/
def handleScreenshot (params : ScreenshotParams) :
    String × ToolResult ScreenshotData :=
  let path := params.path
  let path := if matchesImageExtension path then path else path ++ ".png"
  (path, successResponse ⟨path⟩ ("Screenshot saved to " ++ path))

/-- A memory record as returned by the mem0 list endpoint, with the fields
`handleDeleteMemories` in `src/tools/mem0/index.ts` reads. -/
structure Mem0Memory where
  id : String
  user_id : String
  deriving DecidableEq, Repr

/-- Data payload of a successful delete-memories response, from
`handleDeleteMemories` in `src/tools/mem0/index.ts`. -/
structure DeleteMemoriesData where
  deleted : Bool
  user_id : String
  deleted_count : Nat
  mode : String
  deriving DecidableEq, Repr

/-- The no-`memory_id` branch of `handleDeleteMemories` in
`src/tools/mem0/index.ts` (lines 205-237): list all memories (`listResult`
is the list fetch's outcome — a failed fetch throws and is wrapped as an
`INTERNAL_ERROR`-kind `MCPError` by the surrounding catch), filter them to
the given user, attempt to delete each one counting only the deletions whose
response is ok (`deleteOk` is the per-memory success of the DELETE call),
and return a Success result with the count. -/
def handleDeleteMemoriesAll (listResult : Except String (List Mem0Memory))
    (deleteOk : String → Bool) (user_id : String) :
    Except MCPError (ToolResult DeleteMemoriesData) :=
  match listResult with
  | .error msg =>
    .error { code := ErrorCode.INTERNAL_ERROR,
             message := "Erro ao deletar memórias: " ++ msg,
             details := none }
  | .ok memories =>
    let userMemories := memories.filter (fun m => m.user_id == user_id)
    let deletedCount :=
      userMemories.foldl (fun c m => if deleteOk m.id then c + 1 else c) 0
    .ok (successResponse
      { deleted := true, user_id := user_id, deleted_count := deletedCount,
        mode := "api" }
      (toString deletedCount ++ " memórias do usuário " ++ user_id ++
        " foram deletadas - Modo: API Real"))

/-- The data of a Success-tagged result, if any. -/
def ToolResult.successData {α : Type} : ToolResult α → Option α
  | .success d _ => some d
  | .failure _ _ => none

/-- Every normalized exception is Failure-tagged. -/
theorem catchToolError_isFailure {α : Type} (e : Exn) :
    (catchToolError (α := α) e).isFailure = true := by
  cases e <;> rfl

/-- C1: for every registered tool and every raw argument bag (including a
missing one), dispatch returns a Failure-tagged ToolResult whenever
validation or the handler fails — even when the handler throws a
non-structured exception — and, being a total function into
`ToolResult × ServerState`, it never raises an exception to its caller. -/
theorem callToolHandler_failure_tagged {α : Type}
    (handlers : String → Option (Handler α))
    (validate : String → RawArgs → Except Exn RawArgs)
    (now : Nat) (st : ServerState) (name : String) :
    ((callToolHandler handlers validate now st name none).1.isFailure = true)
    ∧ (∀ args, handlers name = none →
        (callToolHandler handlers validate now st name (some args)).1.isFailure = true)
    ∧ (∀ args handler e, handlers name = some handler →
        validate name args = Except.error e →
        (callToolHandler handlers validate now st name (some args)).1.isFailure = true)
    ∧ (∀ args handler v e st₂, handlers name = some handler →
        validate name args = Except.ok v →
        handler { st with requestCount := st.requestCount + 1 } v
          = (Except.error e, st₂) →
        (callToolHandler handlers validate now st name (some args)).1.isFailure = true) := by
  refine ⟨rfl, ?_, ?_, ?_⟩
  · intro args hH
    simp [callToolHandler, hH, errorResponse, ToolResult.isFailure]
  · intro args handler e hH hV
    simp [callToolHandler, hH, hV, catchToolError_isFailure]
  · intro args handler v e st₂ hH hV hrun
    simp [callToolHandler, hH, hV, hrun, catchToolError_isFailure]

/-- Witness for C1: concrete dispatches exercising each failing branch. -/
theorem callToolHandler_failure_tagged_witness :
    ((callToolHandler (α := Unit) (fun _ => none) (fun _ a => Except.ok a) 0
        ⟨none, none, none, 0, 0⟩ "t" none).1.isFailure = true)
    ∧ ((callToolHandler (α := Unit) (fun _ => none) (fun _ a => Except.ok a) 0
        ⟨none, none, none, 0, 0⟩ "t" (some [])).1.isFailure = true)
    ∧ ((callToolHandler (α := Unit)
        (fun _ => some (fun st _ => (Except.ok (successResponse () "ok"), st)))
        (fun _ _ => Except.error (Exn.err "bad input")) 0
        ⟨none, none, none, 0, 0⟩ "t" (some [])).1.isFailure = true)
    ∧ ((callToolHandler (α := Unit)
        (fun _ => some (fun st _ => (Except.error (Exn.err "boom"), st)))
        (fun _ a => Except.ok a) 0
        ⟨none, none, none, 0, 0⟩ "t" (some [])).1.isFailure = true) := by
  refine ⟨(callToolHandler_failure_tagged _ _ _ _ _).1, ?_, ?_, ?_⟩
  · exact (callToolHandler_failure_tagged _ _ _ _ _).2.1 [] rfl
  · exact (callToolHandler_failure_tagged _ _ _ _ _).2.2.1 []
      (fun st _ => (Except.ok (successResponse () "ok"), st))
      (Exn.err "bad input") rfl rfl
  · exact (callToolHandler_failure_tagged _ _ _ _ _).2.2.2 []
      (fun st _ => (Except.error (Exn.err "boom"), st)) []
      (Exn.err "boom") ⟨none, none, none, 0, 1⟩ rfl rfl rfl

/-- C2 counterexample: a handler that throws a plain (non-structured)
exception with message "boom" is wrapped by dispatch with kind `UNKNOWN`,
not the Internal kind (`INTERNAL_ERROR`) the claim requires. -/
theorem callToolHandler_wraps_as_unknown_not_internal :
    ((callToolHandler (α := Unit)
        (fun _ => some (fun st _ => (Except.error (Exn.err "boom"), st)))
        (fun _ a => Except.ok a) 0
        ⟨none, none, none, 0, 0⟩ "git_status" (some [])).1.errorOf
      = some { code := ErrorCode.UNKNOWN, message := "boom", details := none })
    ∧ ErrorCode.UNKNOWN ≠ ErrorCode.INTERNAL_ERROR := by
  exact ⟨rfl, by decide⟩

/-- C2 (amended): every exception escaping a handler that is not already a
structured `MCPError` is wrapped by the dispatch layer's catch block as an
`UNKNOWN`-kind structured error — preserving the original message when the
exception is an `Error`, and using the default message
"Unknown error occurred" for non-`Error` throws — while a structured
`MCPError` is surfaced with its own kind, message and details. -/
theorem callToolHandler_error_normalization {α : Type}
    (handlers : String → Option (Handler α))
    (validate : String → RawArgs → Except Exn RawArgs)
    (now : Nat) (st : ServerState) (name : String) (args : RawArgs)
    (handler : Handler α) (v : RawArgs) (st₂ : ServerState)
    (hH : handlers name = some handler)
    (hV : validate name args = Except.ok v) :
    (∀ m, handler { st with requestCount := st.requestCount + 1 } v
        = (Except.error (Exn.err m), st₂) →
      (callToolHandler handlers validate now st name (some args)).1.errorOf
        = some { code := ErrorCode.UNKNOWN, message := m, details := none })
    ∧ (handler { st with requestCount := st.requestCount + 1 } v
        = (Except.error Exn.other, st₂) →
      (callToolHandler handlers validate now st name (some args)).1.errorOf
        = some { code := ErrorCode.UNKNOWN,
                 message := "Unknown error occurred", details := none })
    ∧ (∀ e, handler { st with requestCount := st.requestCount + 1 } v
        = (Except.error (Exn.mcp e), st₂) →
      (callToolHandler handlers validate now st name (some args)).1.errorOf
        = some e) := by
  refine ⟨?_, ?_, ?_⟩
  · intro m hrun
    simp [callToolHandler, hH, hV, hrun, catchToolError, errorResponse,
      ToolResult.errorOf]
  · intro hrun
    simp [callToolHandler, hH, hV, hrun, catchToolError, errorResponse,
      ToolResult.errorOf]
  · intro e hrun
    simp [callToolHandler, hH, hV, hrun, catchToolError, errorResponse,
      ToolResult.errorOf]

/-- Witness for C2 (amended): a concrete handler throwing each exception
shape, dispatched from a concrete state. -/
theorem callToolHandler_error_normalization_witness :
    ((callToolHandler (α := Unit)
        (fun _ => some (fun st _ => (Except.error (Exn.err "boom"), st)))
        (fun _ a => Except.ok a) 7 ⟨none, none, none, 3, 0⟩ "t" (some [])).1.errorOf
      = some { code := ErrorCode.UNKNOWN, message := "boom", details := none })
    ∧ ((callToolHandler (α := Unit)
        (fun _ => some (fun st _ => (Except.error Exn.other, st)))
        (fun _ a => Except.ok a) 7 ⟨none, none, none, 3, 0⟩ "t" (some [])).1.errorOf
      = some { code := ErrorCode.UNKNOWN,
               message := "Unknown error occurred", details := none })
    ∧ ((callToolHandler (α := Unit)
        (fun _ => some (fun st _ =>
          (Except.error (Exn.mcp ⟨ErrorCode.TIMEOUT, "slow", some "d"⟩), st)))
        (fun _ a => Except.ok a) 7 ⟨none, none, none, 3, 0⟩ "t" (some [])).1.errorOf
      = some ⟨ErrorCode.TIMEOUT, "slow", some "d"⟩) := by
  refine ⟨?_, ?_, ?_⟩
  · exact (callToolHandler_error_normalization _ _ 7 ⟨none, none, none, 3, 0⟩
      "t" [] _ [] ⟨none, none, none, 3, 1⟩ rfl rfl).1 "boom" rfl
  · exact (callToolHandler_error_normalization _ _ 7 ⟨none, none, none, 3, 0⟩
      "t" [] _ [] ⟨none, none, none, 3, 1⟩ rfl rfl).2.1 rfl
  · exact (callToolHandler_error_normalization _ _ 7 ⟨none, none, none, 3, 0⟩
      "t" [] _ [] ⟨none, none, none, 3, 1⟩ rfl rfl).2.2
      ⟨ErrorCode.TIMEOUT, "slow", some "d"⟩ rfl

/-- C3: `"nonexistent_tool"` is not a key of the `toolHandlers` registry,
and dispatching it with an empty argument bag through any handler map whose
domain is exactly the registry returns a Failure-tagged result with kind
`NOT_FOUND` (and, dispatch being total, does not throw). -/
theorem callToolHandler_unknown_tool_not_found :
    (registeredToolNames.contains "nonexistent_tool" = false)
    ∧ (∀ (handlers : String → Option (Handler Unit))
        (validate : String → RawArgs → Except Exn RawArgs)
        (now : Nat) (st : ServerState),
        (∀ n, (handlers n).isSome = registeredToolNames.contains n) →
        (callToolHandler handlers validate now st "nonexistent_tool" (some [])).1
          = errorResponse ErrorCode.NOT_FOUND "Tool nonexistent_tool not found" none) := by
  refine ⟨by decide, ?_⟩
  intro handlers validate now st hdom
  have h1 : (handlers "nonexistent_tool").isSome = false := by
    rw [hdom "nonexistent_tool"]; decide
  have h2 : handlers "nonexistent_tool" = none := by
    cases h : handlers "nonexistent_tool" with
    | none => rfl
    | some _ => rw [h] at h1; simp at h1
  simp [callToolHandler, h2]

/-- Witness for C3: a concrete handler map defined exactly on the registry
keys. -/
theorem callToolHandler_unknown_tool_not_found_witness :
    (callToolHandler
        (fun n => if registeredToolNames.contains n
          then some (fun st _ => (Except.ok (successResponse () "ok"), st))
          else none)
        (fun _ a => Except.ok a) 0 ⟨none, none, none, 0, 0⟩
        "nonexistent_tool" (some [])).1
      = errorResponse ErrorCode.NOT_FOUND "Tool nonexistent_tool not found" none := by
  refine callToolHandler_unknown_tool_not_found.2 _ _ 0 _ ?_
  intro n
  cases h : registeredToolNames.contains n <;> simp [h]

/-- C8 counterexample: a dispatch call issued at clock value 100 against a
state whose last-activity timestamp is 5 increments the request counter but
leaves the last-activity timestamp at 5 — dispatch does not update it. -/
theorem callToolHandler_keeps_lastActivity :
    ((callToolHandler (α := Unit) (fun _ => none) (fun _ a => Except.ok a)
        100 ⟨none, none, none, 5, 0⟩ "nonexistent_tool" (some [])).2.lastActivity = 5)
    ∧ ((callToolHandler (α := Unit) (fun _ => none) (fun _ a => Except.ok a)
        100 ⟨none, none, none, 5, 0⟩ "nonexistent_tool" (some [])).2.lastActivity ≠ 100)
    ∧ ((callToolHandler (α := Unit) (fun _ => none) (fun _ a => Except.ok a)
        100 ⟨none, none, none, 5, 0⟩ "nonexistent_tool" (some [])).2.requestCount = 1) := by
  exact ⟨rfl, by decide, rfl⟩

/-- C8 (amended): every dispatch call increments the process-wide request
counter by one before doing anything else, regardless of success or failure;
dispatch itself never touches the last-activity timestamp or the
browser/page/client handles — in every non-handler path the resulting state
is exactly the input state with the counter bumped, and when the handler
runs, the resulting state is exactly the handler's output state (so every
other change goes through the invoked handler, which is where the
last-activity timestamp is updated by the adapter-acquisition helpers). -/
theorem callToolHandler_counter_and_frame {α : Type}
    (handlers : String → Option (Handler α))
    (validate : String → RawArgs → Except Exn RawArgs)
    (now : Nat) (st : ServerState) (name : String) :
    ((callToolHandler handlers validate now st name none).2
      = { st with requestCount := st.requestCount + 1 })
    ∧ (∀ args, handlers name = none →
        (callToolHandler handlers validate now st name (some args)).2
          = { st with requestCount := st.requestCount + 1 })
    ∧ (∀ args handler e, handlers name = some handler →
        validate name args = Except.error e →
        (callToolHandler handlers validate now st name (some args)).2
          = { st with requestCount := st.requestCount + 1 })
    ∧ (∀ args handler v, handlers name = some handler →
        validate name args = Except.ok v →
        (callToolHandler handlers validate now st name (some args)).2
          = (handler { st with requestCount := st.requestCount + 1 } v).2) := by
  refine ⟨rfl, ?_, ?_, ?_⟩
  · intro args hH
    simp [callToolHandler, hH]
  · intro args handler e hH hV
    simp [callToolHandler, hH, hV]
  · intro args handler v hH hV
    simp only [callToolHandler, hH, hV]
    rcases hrun : handler { st with requestCount := st.requestCount + 1 } v with ⟨res, st₂⟩
    cases res <;> simp

/-- Witness for C8 (amended): concrete dispatches exercising each branch,
including a handler that rewrites the state. -/
theorem callToolHandler_counter_and_frame_witness :
    ((callToolHandler (α := Unit) (fun _ => none) (fun _ a => Except.ok a)
        9 ⟨none, none, none, 5, 2⟩ "t" none).2 = ⟨none, none, none, 5, 3⟩)
    ∧ ((callToolHandler (α := Unit) (fun _ => none) (fun _ a => Except.ok a)
        9 ⟨none, none, none, 5, 2⟩ "t" (some [])).2 = ⟨none, none, none, 5, 3⟩)
    ∧ ((callToolHandler (α := Unit)
        (fun _ => some (fun st _ => (Except.ok (successResponse () "ok"), st)))
        (fun _ _ => Except.error Exn.other)
        9 ⟨none, none, none, 5, 2⟩ "t" (some [])).2 = ⟨none, none, none, 5, 3⟩)
    ∧ ((callToolHandler (α := Unit)
        (fun _ => some (fun st _ =>
          (Except.ok (successResponse () "ok"), { st with lastActivity := 9 })))
        (fun _ a => Except.ok a)
        9 ⟨none, none, none, 5, 2⟩ "t" (some [])).2 = ⟨none, none, none, 9, 3⟩) := by
  refine ⟨(callToolHandler_counter_and_frame _ _ _ _ _).1, ?_, ?_, ?_⟩
  · exact (callToolHandler_counter_and_frame _ _ _ _ _).2.1 [] rfl
  · exact (callToolHandler_counter_and_frame _ _ _ _ _).2.2.1 []
      (fun st _ => (Except.ok (successResponse () "ok"), st)) Exn.other rfl rfl
  · exact (callToolHandler_counter_and_frame _ _ 9 ⟨none, none, none, 5, 2⟩ "t").2.2.2 []
      (fun st _ => (Except.ok (successResponse () "ok"), { st with lastActivity := 9 }))
      [] rfl rfl

/-- C9: for every screenshot request, when the given path does not end in a
recognized image extension (case-insensitively `.png`, `.jpg`, `.jpeg` or
`.webp`), the handler appends ".png" before saving, and the success response
reports that adjusted path in both its data and its message; a path that
already ends in a recognized extension is used unchanged. In every case the
path in the response equals the path the screenshot was saved to. -/
theorem handleScreenshot_extension (params : ScreenshotParams) :
    ((handleScreenshot params).2.successData
      = some ⟨(handleScreenshot params).1⟩)
    ∧ ((handleScreenshot params).2
      = successResponse ⟨(handleScreenshot params).1⟩
          ("Screenshot saved to " ++ (handleScreenshot params).1))
    ∧ (matchesImageExtension params.path = false →
        (handleScreenshot params).1 = params.path ++ ".png")
    ∧ (matchesImageExtension params.path = true →
        (handleScreenshot params).1 = params.path) := by
  refine ⟨?_, ?_, ?_, ?_⟩
  · simp [handleScreenshot, successResponse, ToolResult.successData]
  · simp [handleScreenshot]
  · intro h
    simp [handleScreenshot, h]
  · intro h
    simp [handleScreenshot, h]

/-- Witness for C9: a bare path gains ".png"; upper-case and recognized
extensions are kept; an unrecognized extension still gains ".png". -/
theorem handleScreenshot_extension_witness :
    (matchesImageExtension "shot" = false
      ∧ (handleScreenshot ⟨"shot", false⟩).1 = "shot.png")
    ∧ (matchesImageExtension "pic.PNG" = true
      ∧ (handleScreenshot ⟨"pic.PNG", true⟩).1 = "pic.PNG")
    ∧ (matchesImageExtension "photo.jpeg" = true
      ∧ (handleScreenshot ⟨"photo.jpeg", false⟩).1 = "photo.jpeg")
    ∧ (matchesImageExtension "doc.txt" = false
      ∧ (handleScreenshot ⟨"doc.txt", false⟩).1 = "doc.txt.png") := by
  refine ⟨⟨by decide, ?_⟩, ⟨by decide, ?_⟩, ⟨by decide, ?_⟩, ⟨by decide, ?_⟩⟩
  · exact (handleScreenshot_extension ⟨"shot", false⟩).2.2.1 (by decide)
  · exact (handleScreenshot_extension ⟨"pic.PNG", true⟩).2.2.2 (by decide)
  · exact (handleScreenshot_extension ⟨"photo.jpeg", false⟩).2.2.2 (by decide)
  · exact (handleScreenshot_extension ⟨"doc.txt", false⟩).2.2.1 (by decide)

/-- Counting matches by a left fold equals the length of the filtered
list. -/
theorem foldl_count_eq_filter_length {β : Type} (p : β → Bool) (l : List β)
    (n : Nat) :
    l.foldl (fun c m => if p m then c + 1 else c) n = n + (l.filter p).length := by
  induction l generalizing n with
  | nil => simp
  | cons a t ih =>
    cases h : p a
    · simp [h, ih]
    · simp only [List.foldl_cons, h, if_pos, List.filter_cons_of_pos,
        List.length_cons, ih]
      omega

/-- C10: for every listing of the memory store and every per-memory deletion
outcome, a delete-memories call without a `memory_id` returns a
Success-tagged result whose `deleted_count` is exactly the number of the
user's memories whose deletion succeeded — an individual deletion failure
does not fail the operation, so the count can be smaller than the number of
memories the user had. -/
theorem handleDeleteMemoriesAll_counts_successes
    (memories : List Mem0Memory) (deleteOk : String → Bool)
    (user_id : String) :
    ∃ r, handleDeleteMemoriesAll (Except.ok memories) deleteOk user_id
        = Except.ok r
      ∧ r.isFailure = false
      ∧ r.successData = some
          { deleted := true, user_id := user_id,
            deleted_count := ((memories.filter (fun m => m.user_id == user_id)).filter
              (fun m => deleteOk m.id)).length,
            mode := "api" }
      ∧ ((memories.filter (fun m => m.user_id == user_id)).filter
          (fun m => deleteOk m.id)).length
          ≤ (memories.filter (fun m => m.user_id == user_id)).length := by
  have hcount := foldl_count_eq_filter_length
    (fun m => deleteOk m.id) (memories.filter (fun m => m.user_id == user_id)) 0
  refine ⟨_, rfl, rfl, ?_, List.length_filter_le _ _⟩
  simp only [handleDeleteMemoriesAll, ToolResult.successData, successResponse]
  rw [hcount]
  simp

/-- When every attempt from index `i` within budget `r` fails, the retry run
returns the last attempt's error after `r + 1` invocations. -/
theorem withRetryRun_all_fail {ε α : Type} (operation : Nat → Except ε α) :
    ∀ r i, (∀ j, j ≤ r → isErr (operation (i + j)) = true) →
      withRetryRun operation r i = (operation (i + r), r + 1) := by
  intro r
  induction r with
  | zero =>
    intro i _
    rw [Nat.add_zero]
    rfl
  | succ r ih =>
    intro i h
    have h0 := h 0 (Nat.zero_le _)
    rw [Nat.add_zero] at h0
    cases hop : operation i with
    | ok a => rw [hop] at h0; exact absurd h0 (by simp [isErr])
    | error e =>
      have hrest := ih (i + 1) (fun j hj => by
        have hh := h (j + 1) (Nat.succ_le_succ hj)
        rwa [show i + (j + 1) = i + 1 + j by omega] at hh)
      simp only [withRetryRun, hop]
      rw [hrest]
      simp only [show i + 1 + r = i + (r + 1) by omega]

/-- When the first success is attempt `i + k` within budget `r`, the retry
run returns that success after `k + 1` invocations. -/
theorem withRetryRun_first_success {ε α : Type} (operation : Nat → Except ε α) :
    ∀ k r i, k ≤ r →
      (∀ j, j < k → isErr (operation (i + j)) = true) →
      isErr (operation (i + k)) = false →
      withRetryRun operation r i = (operation (i + k), k + 1) := by
  intro k
  induction k with
  | zero =>
    intro r i _ _ hok
    rw [Nat.add_zero] at hok ⊢
    cases hop : operation i with
    | ok a => cases r <;> simp [withRetryRun, hop]
    | error e => rw [hop] at hok; exact absurd hok (by simp [isErr])
  | succ k ih =>
    intro r i hkr hfail hok
    cases r with
    | zero => omega
    | succ r =>
      have h0 := hfail 0 (Nat.succ_pos k)
      rw [Nat.add_zero] at h0
      cases hop : operation i with
      | ok a => rw [hop] at h0; exact absurd h0 (by simp [isErr])
      | error e =>
        have hrest := ih r (i + 1) (Nat.le_of_succ_le_succ hkr)
          (fun j hj => by
            have hh := hfail (j + 1) (Nat.succ_lt_succ hj)
            rwa [show i + (j + 1) = i + 1 + j by omega] at hh)
          (by rw [show i + 1 + k = i + (k + 1) by omega]; exact hok)
        simp only [withRetryRun, hop]
        rw [hrest]
        simp only [show i + 1 + k = i + (k + 1) by omega]

/-- C4: with `retries := n`, when every attempt fails `withRetry` invokes
the operation exactly `n + 1` times and fails with the error of the last
attempt; when the first success is attempt index `k` (the `k + 1`-st
invocation, `k ≤ n`), the operation is invoked exactly `k + 1` times and
that first successful result is returned. -/
theorem withRetry_attempt_counts {ε α : Type} (operation : Nat → Except ε α)
    (n d : Nat) :
    ((∀ j, j ≤ n → isErr (operation j) = true) →
      withRetry operation ⟨n, d⟩ = (operation n, n + 1))
    ∧ (∀ k, k ≤ n → (∀ j, j < k → isErr (operation j) = true) →
        isErr (operation k) = false →
        withRetry operation ⟨n, d⟩ = (operation k, k + 1)) := by
  constructor
  · intro h
    have hh := withRetryRun_all_fail operation n 0 (fun j hj => by
      simpa using h j hj)
    simpa [withRetry] using hh
  · intro k hk hfail hok
    have hh := withRetryRun_first_success operation k n 0 hk
      (fun j hj => by simpa using hfail j hj) (by simpa using hok)
    simpa [withRetry] using hh

/-- Witness for C4: an operation failing with "E1","E2","E3" under
`retries := 2` is invoked 3 times and fails with "E3"; an operation failing
twice then succeeding under `retries := 3` is invoked 3 times and returns
the success. -/
theorem withRetry_attempt_counts_witness :
    (withRetry (fun j => (Except.error (["E1", "E2", "E3"].getD j "E")
        : Except String Nat)) ⟨2, 10⟩ = (Except.error "E3", 3))
    ∧ (withRetry (fun j => if j < 2 then (Except.error "boom"
        : Except String Nat) else Except.ok 7) ⟨3, 10⟩ = (Except.ok 7, 3)) := by
  constructor
  · exact (withRetry_attempt_counts _ 2 10).1 (by decide)
  · exact (withRetry_attempt_counts _ 3 10).2 2 (by decide) (by decide) (by decide)

/-- C5: `getOrCompute` returns the stored value without invoking the compute
function — leaving the cache untouched — exactly when a non-stale entry for
the key exists (stale meaning `now - insertionTimestamp >= ttl`); otherwise
(no entry, or a stale one) it invokes the compute function, stores its
result under the key with the current timestamp, and returns it. -/
theorem getOrCompute_contract {V : Type} (c : SimpleCache V) (now : Nat)
    (key : String) (computeFn : V) :
    (∀ entry, c.store.find? (fun p => p.1 == key) = some entry →
      isStale c.ttl now entry.2.timestamp = false →
      c.getOrCompute now key computeFn = (entry.2.value, c, false))
    ∧ (c.store.find? (fun p => p.1 == key) = none →
      ((c.getOrCompute now key computeFn).1 = computeFn
        ∧ (c.getOrCompute now key computeFn).2.2 = true
        ∧ ((c.getOrCompute now key computeFn).2.1).store.find?
            (fun p => p.1 == key) = some (key, ⟨computeFn, now⟩)
        ∧ ((c.getOrCompute now key computeFn).2.1).ttl = c.ttl))
    ∧ (∀ entry, c.store.find? (fun p => p.1 == key) = some entry →
      isStale c.ttl now entry.2.timestamp = true →
      ((c.getOrCompute now key computeFn).1 = computeFn
        ∧ (c.getOrCompute now key computeFn).2.2 = true
        ∧ ((c.getOrCompute now key computeFn).2.1).store.find?
            (fun p => p.1 == key) = some (key, ⟨computeFn, now⟩)
        ∧ ((c.getOrCompute now key computeFn).2.1).ttl = c.ttl)) := by
  refine ⟨?_, ?_, ?_⟩
  · intro entry hfind hfresh
    simp [SimpleCache.getOrCompute, hfind, hfresh]
  · intro hfind
    refine ⟨?_, ?_, ?_, ?_⟩ <;> simp [SimpleCache.getOrCompute, hfind]
  · intro entry hfind hstale
    refine ⟨?_, ?_, ?_, ?_⟩ <;> simp [SimpleCache.getOrCompute, hfind, hstale]

/-- Witness for C5: a concrete cache with TTL 1000 and one entry for "k"
inserted at time 100 — a fresh hit at time 500, a miss for "j", and a stale
hit at time 1100. -/
theorem getOrCompute_contract_witness :
    ((SimpleCache.getOrCompute ⟨1000, [("k", ⟨42, 100⟩)]⟩ 500 "k" 99
        : Nat × SimpleCache Nat × Bool) = (42, ⟨1000, [("k", ⟨42, 100⟩)]⟩, false))
    ∧ ((SimpleCache.getOrCompute ⟨1000, [("k", ⟨42, 100⟩)]⟩ 500 "j" 99).1 = 99
      ∧ (SimpleCache.getOrCompute ⟨1000, [("k", ⟨42, 100⟩)]⟩ 500 "j" 99).2.2 = true
      ∧ ((SimpleCache.getOrCompute ⟨1000, [("k", ⟨42, 100⟩)]⟩ 500 "j" 99).2.1).store.find?
          (fun p => p.1 == "j") = some ("j", ⟨99, 500⟩))
    ∧ ((SimpleCache.getOrCompute ⟨1000, [("k", ⟨42, 100⟩)]⟩ 1100 "k" 99).1 = 99
      ∧ (SimpleCache.getOrCompute ⟨1000, [("k", ⟨42, 100⟩)]⟩ 1100 "k" 99).2.2 = true
      ∧ ((SimpleCache.getOrCompute ⟨1000, [("k", ⟨42, 100⟩)]⟩ 1100 "k" 99).2.1).store.find?
          (fun p => p.1 == "k") = some ("k", ⟨99, 1100⟩)) := by
  refine ⟨?_, ?_, ?_⟩
  · exact (getOrCompute_contract ⟨1000, [("k", ⟨42, 100⟩)]⟩ 500 "k" 99).1
      ("k", ⟨42, 100⟩) (by decide) (by decide)
  · have h := (getOrCompute_contract ⟨1000, [("k", ⟨42, 100⟩)]⟩ 500 "j" 99).2.1
      (by decide)
    exact ⟨h.1, h.2.1, h.2.2.1⟩
  · have h := (getOrCompute_contract ⟨1000, [("k", ⟨42, 100⟩)]⟩ 1100 "k" 99).2.2
      ("k", ⟨42, 100⟩) (by decide) (by decide)
    exact ⟨h.1, h.2.1, h.2.2.1⟩

/-- C7: when the timer elapses before the operation settles, `withTimeout`
fails with a Timeout-kind structured error carrying the given message (or
the default when none is given); when the operation settles first, its own
result or error is propagated unchanged. -/
theorem withTimeout_race {α : Type} (operation : TimedOperation α)
    (timeoutMs : Nat) (message : Option String) :
    (timeoutMs < operation.settlesAt →
      withTimeout operation timeoutMs message
        = Except.error ⟨ErrorCode.TIMEOUT,
            message.getD (defaultTimeoutMessage timeoutMs), none⟩)
    ∧ (operation.settlesAt ≤ timeoutMs →
      withTimeout operation timeoutMs message = operation.outcome) := by
  constructor
  · intro h
    simp [withTimeout, h]
  · intro h
    simp [withTimeout, Nat.not_lt_of_le h]

/-- Witness for C7: a slow operation against a 100ms deadline times out with
the given or default message; a fast one has its result propagated. -/
theorem withTimeout_race_witness :
    (withTimeout (⟨150, Except.ok 5⟩ : TimedOperation Nat) 100 none
      = Except.error ⟨ErrorCode.TIMEOUT, defaultTimeoutMessage 100, none⟩)
    ∧ (withTimeout (⟨150, Except.ok 5⟩ : TimedOperation Nat) 100 (some "Navigation timed out")
      = Except.error ⟨ErrorCode.TIMEOUT, "Navigation timed out", none⟩)
    ∧ (withTimeout (⟨50, Except.ok 5⟩ : TimedOperation Nat) 100 none = Except.ok 5) := by
  refine ⟨?_, ?_, ?_⟩
  · exact (withTimeout_race ⟨150, Except.ok 5⟩ 100 none).1 (by decide)
  · exact (withTimeout_race ⟨150, Except.ok 5⟩ 100 (some "Navigation timed out")).1 (by decide)
  · exact (withTimeout_race ⟨50, Except.ok 5⟩ 100 none).2 (by decide)

/-- Whether an enter outcome started the computation. -/
def EnterOutcome.isStart {V : Type} : EnterOutcome V → Bool
  | .startedCompute => true
  | _ => false

/-- Appending a subscriber to a key's pending record preserves the lookup:
the key's waiter list simply grows by that caller. -/
theorem find?_update_pending :
    ∀ (l : List (String × List Nat)) (key : String) (caller : Nat)
      (acc : List Nat),
      l.find? (fun p => p.1 == key) = some (key, acc) →
      (l.map (fun p => if p.1 == key then (p.1, p.2 ++ [caller]) else p)).find?
        (fun p => p.1 == key) = some (key, acc ++ [caller])
  | [], key, caller, acc, h => by simp at h
  | a :: t, key, caller, acc, h => by
    rw [List.find?_cons] at h
    cases ha : (a.1 == key) with
    | true =>
      rw [ha] at h
      injection h with h
      subst h
      simp only [List.map_cons]
      rw [List.find?_cons]
      simp
    | false =>
      rw [ha] at h
      have hrec := find?_update_pending t key caller acc h
      simp only [List.map_cons]
      rw [List.find?_cons]
      simp only [ha, Bool.false_eq_true, if_false]
      exact hrec

/-- Entering with the key already in flight subscribes the caller: the store
and TTL are untouched and the key's waiter list grows by the caller. -/
theorem enter_subscribes {V : Type} (c : CoalescingCache V) (now : Nat)
    (key : String) (caller : Nat) (acc : List Nat)
    (hs : c.store.find? (fun p => p.1 == key) = none)
    (hp : c.pending.find? (fun p => p.1 == key) = some (key, acc)) :
    (c.enter now key caller).2 = EnterOutcome.subscribed
    ∧ ((c.enter now key caller).1).store = c.store
    ∧ ((c.enter now key caller).1).ttl = c.ttl
    ∧ ((c.enter now key caller).1).pending.find? (fun p => p.1 == key)
        = some (key, acc ++ [caller]) := by
  have hupd := find?_update_pending c.pending key caller acc hp
  simp only [CoalescingCache.enter, CoalescingCache.enterMiss, hs, hp]
  exact ⟨by trivial, by trivial, by trivial, hupd⟩

/-- While a key is in flight, every further caller entering for that key
only subscribes: the outcomes are all `subscribed`, the store and TTL are
untouched, and the waiter list accumulates the callers in order. -/
theorem runEnters_subscribe {V : Type} :
    ∀ (rest : List Nat) (c : CoalescingCache V) (now : Nat) (key : String)
      (acc : List Nat),
      c.store.find? (fun p => p.1 == key) = none →
      c.pending.find? (fun p => p.1 == key) = some (key, acc) →
      (c.runEnters now key rest).2
          = rest.map (fun r => (r, EnterOutcome.subscribed))
      ∧ ((c.runEnters now key rest).1).store = c.store
      ∧ ((c.runEnters now key rest).1).ttl = c.ttl
      ∧ ((c.runEnters now key rest).1).pending.find? (fun p => p.1 == key)
          = some (key, acc ++ rest)
  | [], c, now, key, acc, _, hp => by
    refine ⟨rfl, rfl, rfl, ?_⟩
    simpa using hp
  | r :: rs, c, now, key, acc, hs, hp => by
    have h1 := enter_subscribes c now key r acc hs hp
    have h2 := runEnters_subscribe rs (c.enter now key r).1 now key
      (acc ++ [r]) (by rw [h1.2.1]; exact hs) h1.2.2.2
    refine ⟨?_, ?_, ?_, ?_⟩
    · simp [CoalescingCache.runEnters, h1.1, h2.1]
    · simp [CoalescingCache.runEnters, h2.2.1, h1.2.1]
    · simp [CoalescingCache.runEnters, h2.2.2.1, h1.2.2.1]
    · simp [CoalescingCache.runEnters, h2.2.2.2, List.append_assoc]

/-- C6: from a state with no entry and no in-flight computation for the key,
any number of overlapping `getOrCompute` calls for that key issued before
the first completes start the computation exactly once — the first caller
starts it and every later caller subscribes — and on completion every caller
receives the one computed value. -/
theorem coalescing_single_compute {V : Type} (c₀ : CoalescingCache V)
    (enterTime completeTime : Nat) (key : String) (v : V)
    (first : Nat) (rest : List Nat)
    (hs : c₀.store.find? (fun p => p.1 == key) = none)
    (hp : c₀.pending.find? (fun p => p.1 == key) = none) :
    ((c₀.runEnters enterTime key (first :: rest)).2
        = (first, EnterOutcome.startedCompute)
          :: rest.map (fun r => (r, EnterOutcome.subscribed)))
    ∧ (((c₀.runEnters enterTime key (first :: rest)).2.filter
        (fun o => o.2.isStart)).length = 1)
    ∧ ((((c₀.runEnters enterTime key (first :: rest)).1).complete
        completeTime key v).2 = (first :: rest).map (fun caller => (caller, v))) := by
  have h1 : c₀.enter enterTime key first
      = (⟨c₀.ttl, c₀.store, (key, [first]) :: c₀.pending⟩,
         EnterOutcome.startedCompute) := by
    simp [CoalescingCache.enter, CoalescingCache.enterMiss, hs, hp]
  have h2 := runEnters_subscribe rest
    (⟨c₀.ttl, c₀.store, (key, [first]) :: c₀.pending⟩ : CoalescingCache V)
    enterTime key [first] (by simpa using hs) (by simp)
  have key_step : c₀.runEnters enterTime key (first :: rest)
      = (((⟨c₀.ttl, c₀.store, (key, [first]) :: c₀.pending⟩
            : CoalescingCache V).runEnters enterTime key rest).1,
         (first, EnterOutcome.startedCompute)
          :: ((⟨c₀.ttl, c₀.store, (key, [first]) :: c₀.pending⟩
            : CoalescingCache V).runEnters enterTime key rest).2) := by
    simp [CoalescingCache.runEnters, h1]
  refine ⟨?_, ?_, ?_⟩
  · rw [key_step]
    simp [h2.1]
  · rw [key_step]
    simp [h2.1, EnterOutcome.isStart, List.filter_map, Function.comp]
  · rw [key_step]
    simp [CoalescingCache.complete, h2.2.2.2]

/-- Witness for C6: three overlapping callers for key "k" on an empty cache
— one computation started, two subscriptions, and all three receive 42. -/
theorem coalescing_single_compute_witness :
    ((CoalescingCache.runEnters ⟨1000, [], []⟩ 0 "k" [5, 6, 7]).2
        = [(5, EnterOutcome.startedCompute), (6, EnterOutcome.subscribed),
           (7, (EnterOutcome.subscribed : EnterOutcome Nat))])
    ∧ ((((CoalescingCache.runEnters ⟨1000, [], []⟩ 0 "k" [5, 6, 7]).1).complete
        10 "k" (42 : Nat)).2 = [(5, 42), (6, 42), (7, 42)]) := by
  have h := coalescing_single_compute (⟨1000, [], []⟩ : CoalescingCache Nat)
    0 10 "k" 42 5 [6, 7] rfl rfl
  exact ⟨h.1, h.2.2⟩
